import Mathlib

/-!
Shallow embedding of `telegram_notifications.py`, a Houdini render-progress
notifier.  Host calls (`hou` node methods, parameter evaluation) are modelled
as `Except Unit` values on a `Node` record; the chat API, the filesystem glob
and image conversion are modelled by a `World` oracle; outbound messages are
recorded as structured `Effect` values.  Time is passed explicitly as a
rational number of seconds.
-/

namespace TelegramNotifications

/-- Python `int(x)` on a float/rational: truncation toward zero. -/
def pyInt (x : ℚ) : ℤ := if 0 ≤ x then ⌊x⌋ else ⌈x⌉

/-- Python `a % b` for `b > 0` (result has the sign of `b`). -/
def pyMod (a b : ℚ) : ℚ := a - b * ⌊a / b⌋

/-- Python `round(x)`: round half to even (banker's rounding). -/
def pyRound (x : ℚ) : ℤ :=
  let f := ⌊x⌋
  let frac := x - f
  if frac < 1/2 then f
  else if 1/2 < frac then f + 1
  else if f % 2 = 0 then f else f + 1

/-- Python `range(start, stop, step)` for a positive step. -/
def pyRange (start stop step : ℕ) : List ℕ :=
  if step = 0 then []
  else (List.range ((stop - start + step - 1) / step)).map (fun i => start + i * step)

/-- Python `s * n` string repetition (empty for a non-positive count). -/
def strRepeat (s : String) (n : ℤ) : String :=
  String.join (List.replicate n.toNat s)

/-- Insertion step for `sortStr`. -/
def insertSorted (x : String) : List String → List String
  | [] => [x]
  | y :: ys => if x < y then x :: y :: ys else y :: insertSorted x ys

/-- Python `sorted` on a list of strings (ascending). -/
def sortStr (l : List String) : List String := l.foldr insertSorted []

/-- Auxiliary scan for `strRfind`. -/
def rfindAux (c : Char) : List Char → ℕ → ℤ → ℤ
  | [], _, acc => acc
  | x :: xs, i, acc => rfindAux c xs (i + 1) (if x = c then (i : ℤ) else acc)

/-- Python `s.rfind(c)`: index of the last occurrence, `-1` when absent. -/
def strRfind (s : String) (c : Char) : ℤ := rfindAux c s.toList 0 (-1)

/-- Python `s[:n]` for a (possibly negative) integer bound used after `rfind`. -/
def takeChars (s : String) (n : ℤ) : String := String.mk (s.toList.take n.toNat)

/-- Python `s[n:]`. -/
def dropChars (s : String) (n : ℤ) : String := String.mk (s.toList.drop n.toNat)

/-- Is the string made only of `/` characters? -/
def allSlash (s : String) : Bool := s.toList.all (· = '/')

/-- Python `s.rstrip('/')`. -/
def rstripSlash (s : String) : String :=
  String.mk ((s.toList.reverse.dropWhile (· = '/')).reverse)

/-- Function `os.path.dirname` (posix). -/
def os_dirname (p : String) : String :=
  let i := strRfind p '/' + 1
  let head := takeChars p i
  if head ≠ "" ∧ ¬ allSlash head then rstripSlash head else head

/-- Function `os.path.basename` (posix). -/
def os_basename (p : String) : String := dropChars p (strRfind p '/' + 1)

/-- Function `os.path.splitext` (posix). -/
def os_splitext (p : String) : String × String :=
  let l := p.toList
  let sepIndex := strRfind p '/'
  let dotIndex := strRfind p '.'
  if sepIndex < dotIndex then
    let fi := (sepIndex + 1).toNat
    let di := dotIndex.toNat
    if ((l.drop fi).take (di - fi)).any (· ≠ '.') then
      (String.mk (l.take di), String.mk (l.drop di))
    else (p, "")
  else (p, "")

/-- Python `s.rsplit('.', 1)[0]`. -/
def rsplitDotHead (s : String) : String :=
  let i := strRfind s '.'
  if 0 ≤ i then takeChars s i else s

/-- Function `os.path.join` (posix, two arguments). -/
def os_join (a b : String) : String :=
  if b.startsWith "/" then b
  else if a = "" ∨ a.endsWith "/" then a ++ b
  else a ++ "/" ++ b

/-- A Houdini render node as seen by the script.  Each host call that can
raise (`node.path()`, `node.name()`, `node.type().name()`, parameter
evaluation) is an `Except Unit` value; `has_trange` models
`node.parm('trange')` being `None`.  `refs_picture` models the
`node.references()` loop followed by `refNode.parm('picture').eval()`. -/
structure Node where
  path : Except Unit String
  name : Except Unit String
  type_name : Except Unit String
  has_trange : Bool
  trange : Except Unit ℤ
  f1 : Except Unit ℚ
  f2 : Except Unit ℚ
  vm_picture : Except Unit String
  refs_picture : Except Unit String

/-- The per-render state stored in `CURRENT_RENDERS[node_path]`. -/
structure RenderState where
  start_time : ℚ
  message_id : Option ℕ
  completed_frames : Finset ℚ
  total_frames : ℤ
  start_frame : ℤ
  end_frame : ℤ
  last_update_time : ℚ
  update_interval : ℚ
deriving DecidableEq

/-- The per-node entry of `SESSION_RENDERS`. -/
structure SessionStats where
  times : List ℚ
  total_renders : ℕ
  frames_rendered : ℕ
  total_time : ℚ
deriving DecidableEq

/-- The view assembled by `get_render_stats`. -/
structure RenderStatsView where
  average : String
  total_renders : ℕ
  last_render : String
deriving DecidableEq

/-- Structured content of an outbound chat message (one constructor per
f-string template in the script, carrying the interpolated values). -/
inductive Msg where
  | renderStarted (engine nodeName : String) (startFrame endFrame totalFrames : ℤ)
  | renderProgress (engine nodeName : String) (framesDone : ℕ) (totalFrames : ℤ)
      (progressPercent : ℚ) (progressBar : String) (duration timeRemaining avgPerFrame : ℚ)
  | renderInterrupted (engine nodeName : String) (framesDone : ℕ) (totalFrames : ℤ)
      (percent duration : ℚ) (lastFrame : Option ℚ)
  | renderComplete (engine nodeName : String) (startFrame endFrame : ℤ) (framesDone : ℕ)
      (duration : ℚ) (statsAverage : String) (statsTotalRenders : ℕ)
  | renderFinished (nodeName : String) (duration : ℚ) (framesDone : ℕ) (totalFrames : ℤ)
  | renderFailed (engine nodeName : String) (duration : ℚ)
  | errorReport (nodeName : String)
deriving DecidableEq

/-- An observable side effect of the handler: a chat send, an edit of a
tracked message, a log-widget line, or a media upload. -/
inductive Effect where
  | send (m : Msg)
  | edit (messageId : ℕ) (m : Msg)
  | log (s : String)
  | sendPhoto (path nodeName : String)
  | sendAnimation (framePaths : List String) (nodeName : String)
deriving DecidableEq

/-- Oracle for the external world: the reply of `sendMessage` (message id, or
`none` when every post failed), whether `editMessageText` posts go through,
whether media posts return ok, the glob result for a pattern, and whether a
frame file converts to RGB. -/
structure World where
  sendReply : Option ℕ
  editOk : Bool
  postOk : Bool
  glob : String → List String
  convOk : String → Bool

/-- Dictionary `CURRENT_RENDERS` as a partial map. -/
abbrev RMap : Type := String → Option RenderState

/-- Dictionary `SESSION_RENDERS` as a partial map. -/
abbrev SMap : Type := String → Option SessionStats

/-- Python dict assignment `d[k] = v`. -/
def dictSet (m : RMap) (k : String) (v : RenderState) : RMap :=
  fun k' => if k' = k then some v else m k'

/-- Python `del d[k]`. -/
def dictDel (m : RMap) (k : String) : RMap :=
  fun k' => if k' = k then none else m k'

/-- Dict assignment on `SESSION_RENDERS`. -/
def sdictSet (m : SMap) (k : String) (v : SessionStats) : SMap :=
  fun k' => if k' = k then some v else m k'

/-- Event types of `hou.ropRenderEventType`. -/
inductive RopRenderEventType where
  | PreRender | PreFrame | PostFrame | PostRender
deriving DecidableEq

/-- Result of one `on_render_event` call: the two module dictionaries, the
effects emitted (in order), and whether an exception escaped to the host. -/
structure EventResult where
  renders : RMap
  session : SMap
  effects : List Effect
  raised : Bool

/-- Function `get_progress_bar`. -/
def get_progress_bar (progress : ℚ) : String :=
  let bar_length : ℤ := 10
  let filled := pyRound ((bar_length : ℚ) * progress)
  strRepeat "🟩" filled ++ strRepeat "⬜" (bar_length - filled)

/-- Function `send_telegram_message`: records the send and returns the message id the
chat API replied with (`None` on failure). -/
def send_telegram_message (w : World) (m : Msg) : List Effect × Option ℕ :=
  ([Effect.send m], w.sendReply)

/-- Function `should_update_progress`: returns the boolean result together with the
(possibly mutated) state. -/
def should_update_progress (state : RenderState) (now : ℚ) : Bool × RenderState :=
  let time_since_update := now - state.last_update_time
  if state.update_interval ≤ time_since_update then
    (true, { state with last_update_time := now })
  else (false, state)

/-- Function `format_time`. -/
def format_time (seconds : ℚ) : String :=
  let hours : ℤ := pyInt ⌊seconds / 3600⌋
  let minutes : ℤ := pyInt ⌊pyMod seconds 3600 / 60⌋
  let secs : ℤ := pyInt (pyMod seconds 60)
  if 0 < hours then
    toString hours ++ "h " ++ toString minutes ++ "m " ++ toString secs ++ "s"
  else if 0 < minutes then
    toString minutes ++ "m " ++ toString secs ++ "s"
  else toString secs ++ "s"

/-- Function `get_render_engine` (its `try`/`except` returns `"Unknown"`). -/
def get_render_engine (node : Node) : String :=
  match node.type_name with
  | .error _ => "Unknown"
  | .ok type_name =>
    if type_name = "ifd" then "Mantra"
    else if type_name = "usdrender_rop" then "Karma"
    else type_name

/-- Function `get_node_name`: `node.name()`, falling back to `node.path()` — which can
itself raise. -/
def get_node_name (node : Node) : Except Unit String :=
  match node.name with
  | .ok n => .ok n
  | .error _ => node.path

/-- Function `get_sequence_range` (any failure yields `(1, 1)`). -/
def get_sequence_range (node : Node) : ℚ × ℚ :=
  if node.has_trange = false then (1, 1)
  else
    match node.trange with
    | .error _ => (1, 1)
    | .ok t =>
      if t = 0 then (1, 1)
      else
        match node.f1, node.f2 with
        | .ok s, .ok e => (s, e)
        | _, _ => (1, 1)

/-- Function `update_render_stats`. -/
def update_render_stats (m : SMap) (node_path : String) (render_time : ℚ)
    (frame_count : ℕ) : SMap :=
  let stats : SessionStats :=
    match m node_path with
    | none => { times := [], total_renders := 0, frames_rendered := 0, total_time := 0 }
    | some s => s
  let stats : SessionStats :=
    { times := stats.times ++ [render_time]
      total_renders := stats.total_renders + 1
      frames_rendered := stats.frames_rendered + frame_count
      total_time := stats.total_time + render_time }
  let stats := if 10 < stats.times.length then { stats with times := stats.times.tail } else stats
  sdictSet m node_path stats

/-- Function `get_render_stats`. -/
def get_render_stats (m : SMap) (node_path : String) : Option RenderStatsView :=
  match m node_path with
  | none => none
  | some stats =>
    if stats.times = [] then none
    else
      let total_frames := stats.frames_rendered
      let total_time := stats.total_time
      let avg_per_frame : ℚ := if 0 < total_frames then total_time / total_frames else 0
      some
        { average := format_time avg_per_frame
          total_renders := stats.total_renders
          last_render :=
            match stats.times.getLast? with
            | some t => format_time t
            | none => "N/A" }

/-- Function `initialize_render_state` (with `datetime.now()` passed as the explicit `now`). -/
def initialize_render_state (node : Node) (now : ℚ) : RenderState :=
  let se := get_sequence_range node
  let frame_count : ℤ := pyInt (se.2 - se.1 + 1)
  { start_time := now
    message_id := none
    completed_frames := ∅
    total_frames := frame_count
    start_frame := pyInt se.1
    end_frame := pyInt se.2
    last_update_time := now
    update_interval := 2 }

/-- The frame-sampling block of `send_telegram_animation` for more than 30
frames: first ten indices, a strided middle range, last ten indices, then
`sorted(set(...))` applied back to the frame list. -/
def sampleFrames (frames : List String) : List String :=
  let n := frames.length
  let sample_indices := List.range 10 ++ pyRange 10 (n - 10) ((n - 20) / 10) ++ pyRange (n - 10) n 1
  let idxs := sample_indices.toFinset.sort (· ≤ ·)
  idxs.map (fun i => frames.getD i "")

/-- Function `send_telegram_animation`.  The returned flag is `some b` for a normal
return of `b`, and `none` when the single-frame branch raises inside its own
`except` handler (the `temp_gif` name is unbound there), propagating to the
caller. -/
def send_telegram_animation (w : World) (node : Node) (frames_path_pattern : String) :
    List Effect × Option Bool :=
  let frames := sortStr (w.glob frames_path_pattern)
  match frames with
  | [] => ([Effect.log ("No frames found matching pattern: " ++ frames_path_pattern)], some false)
  | [frame_path] =>
    let effs := [Effect.log ("Processing single frame: " ++ frame_path)]
    if w.convOk frame_path = false then
      (effs ++ [Effect.log ("Failed to convert frame " ++ frame_path ++ " to RGB")], some false)
    else
      let effs := effs ++ [Effect.log "Sending single frame to Telegram..."]
      match get_node_name node with
      | .error _ => (effs, none)
      | .ok node_name =>
        let effs := effs ++ [Effect.sendPhoto frame_path node_name]
        if w.postOk = false then
          (effs ++ [Effect.log "Failed to send single frame: "], some false)
        else (effs, some true)
  | f0 :: f1 :: rest =>
    let frames := f0 :: f1 :: rest
    let frames := if 30 < frames.length then sampleFrames frames else frames
    let effs := [Effect.log ("Processing " ++ toString frames.length ++ " frames for preview...")]
    let images := frames.filter (fun f => w.convOk f)
    if images = [] then
      (effs ++ [Effect.log "No frames were successfully processed"], some false)
    else
      let effs := effs ++ [Effect.log "Creating GIF...", Effect.log "Sending animation to Telegram..."]
      match get_node_name node with
      | .error _ => (effs ++ [Effect.log "Error creating/sending animation: "], some false)
      | .ok node_name =>
        let effs := effs ++ [Effect.sendAnimation images node_name]
        let effs :=
          if w.postOk = false then effs ++ [Effect.log "Failed to send animation: "] else effs
        (effs, some true)

/-- The inner `try` block of the completion branch of `PostRender`: derive the
output picture pattern and attempt the animation preview; every failure inside
is caught and logged. -/
def completion_preview (w : World) (node : Node) : List Effect :=
  match node.type_name with
  | .error _ => [Effect.log "Could not generate animation preview: "]
  | .ok type_name =>
    let output_path? : Except Unit String :=
      if type_name = "ifd" then node.vm_picture
      else if type_name = "usdrender_rop" then node.refs_picture
      else .error ()
    match output_path? with
    | .error _ => [Effect.log "Could not generate animation preview: "]
    | .ok output_path =>
      let output_dir := os_dirname output_path
      let file_base := os_basename output_path
      let name_parts := os_splitext file_base
      let base_pattern := os_join output_dir (rsplitDotHead name_parts.1 ++ ".*" ++ name_parts.2)
      let effs := [Effect.log ("Searching for frames with pattern: " ++ base_pattern)]
      match send_telegram_animation w node base_pattern with
      | (animEffs, none) => effs ++ animEffs ++ [Effect.log "Could not generate animation preview: "]
      | (animEffs, some sent) =>
        effs ++ animEffs ++ (if sent then [Effect.log "Animation preview sent successfully!"] else [])

/-- The `except` handler of `on_render_event`: build and send the error
report, then drop the node's entry.  Both `get_node_name(node)` and the
`node.path()` call inside the handler are unprotected, so their failure
propagates (`raised = true`). -/
def handle_event_error (w : World) (node : Node) (renders : RMap) (session : SMap)
    (effects : List Effect) : EventResult :=
  match get_node_name node with
  | .error _ => ⟨renders, session, effects, true⟩
  | .ok node_name =>
    let effects := effects ++ (send_telegram_message w (Msg.errorReport node_name)).1
    match node.path with
    | .error _ => ⟨renders, session, effects, true⟩
    | .ok p =>
      if (renders p).isSome then ⟨dictDel renders p, session, effects, false⟩
      else ⟨renders, session, effects, false⟩

/-- The `PreRender` branch of `on_render_event`. -/
def handle_pre_render (w : World) (node : Node) (node_path : String) (renders : RMap)
    (session : SMap) (now : ℚ) : EventResult :=
  if (renders node_path).isSome then ⟨renders, session, [], false⟩
  else
    let state := initialize_render_state node now
    let renders := dictSet renders node_path state
    match get_node_name node with
    | .error _ => handle_event_error w node renders session []
    | .ok node_name =>
      let message := Msg.renderStarted (get_render_engine node) node_name
        state.start_frame state.end_frame state.total_frames
      let sent := send_telegram_message w message
      match sent.2 with
      | some msg_id =>
        ⟨dictSet renders node_path { state with message_id := some msg_id }, session, sent.1, false⟩
      | none => ⟨renders, session, sent.1, false⟩

/-- The `PostFrame` branch of `on_render_event`.  The division
`frames_done / total_frames` raises `ZeroDivisionError` when
`total_frames = 0`, which falls to the `except` handler. -/
def handle_post_frame (w : World) (node : Node) (node_path : String) (renders : RMap)
    (session : SMap) (frame_time now : ℚ) : EventResult :=
  match renders node_path with
  | none => ⟨renders, session, [], false⟩
  | some state =>
    let state := { state with completed_frames := insert frame_time state.completed_frames }
    let upd := should_update_progress state now
    let state := upd.2
    let renders := dictSet renders node_path state
    if upd.1 then
      let duration := now - state.start_time
      let frames_done := state.completed_frames.card
      let total_frames := state.total_frames
      let avg_time_per_frame : ℚ := if 0 < frames_done then duration / frames_done else 0
      let estimated_total := avg_time_per_frame * (total_frames : ℚ)
      let time_remaining := max 0 (estimated_total - duration)
      if total_frames = 0 then handle_event_error w node renders session []
      else
        let progress_percent := ((frames_done : ℚ) / (total_frames : ℚ)) * 100
        let progress_bar := get_progress_bar ((frames_done : ℚ) / (total_frames : ℚ))
        match get_node_name node with
        | .error _ => handle_event_error w node renders session []
        | .ok node_name =>
          let message := Msg.renderProgress (get_render_engine node) node_name frames_done
            total_frames progress_percent progress_bar duration time_remaining avg_time_per_frame
          match state.message_id with
          | some mid =>
            let effs := [Effect.edit mid message] ++
              (if w.editOk then [] else [Effect.log "Error updating frame progress: "])
            ⟨renders, session, effs, false⟩
          | none => ⟨renders, session, [], false⟩
    else ⟨renders, session, [], false⟩

/-- The `PostRender` branch of `on_render_event`. -/
def handle_post_render (w : World) (node : Node) (node_path : String) (renders : RMap)
    (session : SMap) (now : ℚ) : EventResult :=
  match renders node_path with
  | none => ⟨renders, session, [], false⟩
  | some state =>
    let render_duration := now - state.start_time
    let frames_completed := state.completed_frames.card
    let expected_frames := state.total_frames
    if 0 < frames_completed ∧ (frames_completed : ℤ) < expected_frames then
      match get_node_name node with
      | .error _ => handle_event_error w node renders session []
      | .ok node_name =>
        let percent := ((frames_completed : ℚ) / (expected_frames : ℚ)) * 100
        let lastF : Option ℚ :=
          if h : state.completed_frames.Nonempty then some (state.completed_frames.max' h)
          else none
        let msg := Msg.renderInterrupted (get_render_engine node) node_name frames_completed
          expected_frames percent render_duration lastF
        let effs :=
          match state.message_id with
          | some mid => [Effect.edit mid msg] ++ (if w.editOk then [] else [Effect.send msg])
          | none => []
        ⟨dictDel renders node_path, session, effs, false⟩
    else if (frames_completed : ℤ) = expected_frames then
      let session := update_render_stats session node_path render_duration frames_completed
      let stats := get_render_stats session node_path
      let previewEffs := completion_preview w node
      match stats with
      | none => handle_event_error w node renders session previewEffs
      | some stats =>
        match get_node_name node with
        | .error _ => handle_event_error w node renders session previewEffs
        | .ok node_name =>
          let msg := Msg.renderComplete (get_render_engine node) node_name state.start_frame
            state.end_frame frames_completed render_duration stats.average stats.total_renders
          let effs :=
            match state.message_id with
            | some mid => [Effect.edit mid msg] ++ (if w.editOk then [] else [Effect.send msg])
            | none => [Effect.send msg]
          let completion_message := Msg.renderFinished node_name render_duration
            frames_completed state.total_frames
          ⟨dictDel renders node_path, session,
            previewEffs ++ effs ++ [Effect.send completion_message], false⟩
    else
      match get_node_name node with
      | .error _ => handle_event_error w node renders session []
      | .ok node_name =>
        let msg := Msg.renderFailed (get_render_engine node) node_name render_duration
        let effs :=
          match state.message_id with
          | some mid => [Effect.edit mid msg] ++ (if w.editOk then [] else [Effect.send msg])
          | none => [Effect.send msg]
        ⟨dictDel renders node_path, session, effs, false⟩

/-- Function `on_render_event`, the render event callback. -/
def on_render_event (w : World) (notifications_enabled : Bool) (renders : RMap)
    (session : SMap) (node : Node) (event_type : RopRenderEventType) (frame_time now : ℚ) :
    EventResult :=
  if notifications_enabled = false then ⟨renders, session, [], false⟩
  else
    match node.path with
    | .error _ => handle_event_error w node renders session []
    | .ok node_path =>
      match event_type with
      | .PreRender => handle_pre_render w node node_path renders session now
      | .PostFrame => handle_post_frame w node node_path renders session frame_time now
      | .PostRender => handle_post_render w node node_path renders session now
      | .PreFrame => ⟨renders, session, [], false⟩

/-- Does the message use the "Render Complete!" template? -/
def Msg.isComplete : Msg → Bool
  | .renderComplete .. => true
  | _ => false

/-- Does the message use the "RENDER FINISHED!" template? -/
def Msg.isFinished : Msg → Bool
  | .renderFinished .. => true
  | _ => false

/-- Does the message use the "Render Interrupted!" template? -/
def Msg.isInterrupted : Msg → Bool
  | .renderInterrupted .. => true
  | _ => false

/-- Does the message use the "RENDER FAILED!" template? -/
def Msg.isFailed : Msg → Bool
  | .renderFailed .. => true
  | _ => false

/-- The chat message carried by an effect, if any. -/
def Effect.msg : Effect → Option Msg
  | .send m => some m
  | .edit _ m => some m
  | _ => none

/-- Does the effect send or edit a message with the given property? -/
def reports (p : Msg → Bool) (e : Effect) : Bool :=
  match e.msg with
  | some m => p m
  | none => false

/-- Is the effect a media upload (photo or animation preview)? -/
def Effect.isMedia : Effect → Bool
  | .sendPhoto .. => true
  | .sendAnimation .. => true
  | _ => false

/-- The frame value is integral and lies in the state's
`start_frame..end_frame` range. -/
def intFrame (st : RenderState) (x : ℚ) : Prop :=
  ∃ k : ℤ, x = (k : ℚ) ∧ st.start_frame ≤ k ∧ k ≤ st.end_frame

/-- Invariant of one render state: every completed frame is integral and
in range, the range is ordered, and `total_frames` counts it. -/
def stateInv (st : RenderState) : Prop :=
  (∀ x ∈ st.completed_frames, intFrame st x) ∧
  st.start_frame ≤ st.end_frame ∧
  st.total_frames = st.end_frame - st.start_frame + 1

/-- Invariant of the whole `CURRENT_RENDERS` dictionary. -/
def mapInv (m : RMap) : Prop := ∀ p st, m p = some st → stateInv st

/-- The node's evaluated sequence range has integer endpoints in order. -/
def goodRange (node : Node) : Prop :=
  ∃ si ei : ℤ, get_sequence_range node = ((si : ℚ), (ei : ℚ)) ∧ si ≤ ei

/-- Deliver a sequence of `PostFrame` events (frame time, wall-clock time)
for one node, accumulating the effects. -/
def run_post_frames (w : World) (node : Node) (renders : RMap) (session : SMap) :
    List (ℚ × ℚ) → EventResult
  | [] => ⟨renders, session, [], false⟩
  | ev :: rest =>
    let r := on_render_event w true renders session node .PostFrame ev.1 ev.2
    let r' := run_post_frames w node r.renders r.session rest
    ⟨r'.renders, r'.session, r.effects ++ r'.effects, r.raised || r'.raised⟩

/-- Number of distinct completed frames recorded for a node path. -/
def completedCount (m : RMap) (p : String) : ℕ :=
  match m p with
  | some st => st.completed_frames.card
  | none => 0

/-- Replay a session's `update_render_stats` calls (duration, frame count)
for one node path, starting from the empty `SESSION_RENDERS`. -/
def run_update_stats (node_path : String) (calls : List (ℚ × ℕ)) : SMap :=
  calls.foldl (fun s c => update_render_stats s node_path c.1 c.2) (fun _ => none)

/-- The session entry predicted for a node path after a list of
`update_render_stats` calls. -/
def expectedStats (calls : List (ℚ × ℕ)) : SessionStats :=
  { times := (calls.map Prod.fst).drop (calls.length - 10)
    total_renders := calls.length
    frames_rendered := (calls.map Prod.snd).sum
    total_time := (calls.map Prod.fst).sum }

/-- A benign world: sends succeed with message id 1, edits and posts go
through, the glob is empty, every frame converts. -/
def sampleWorld : World := ⟨some 1, true, true, fun _ => [], fun _ => true⟩

/-- A healthy Mantra node rendering frames 1 to 3. -/
def sampleNode : Node :=
  ⟨.ok "n", .ok "n1", .ok "ifd", true, .ok 1, .ok 1, .ok 3, .ok "/out/img.png", .error ()⟩

/-- A node whose frame range evaluates inverted: `f1 = 10`, `f2 = 1`. -/
def invertedNode : Node :=
  ⟨.ok "bad", .ok "bad1", .ok "other", true, .ok 1, .ok 10, .ok 1, .error (), .error ()⟩

/-- A node whose every host call raises (e.g. it was deleted mid-render). -/
def lostNode : Node :=
  ⟨.error (), .error (), .error (), false, .error (), .error (), .error (), .error (), .error ()⟩

/-- The empty `CURRENT_RENDERS`. -/
def emptyRMap : RMap := fun _ => none

/-- The empty `SESSION_RENDERS`. -/
def emptySMap : SMap := fun _ => none

/-- A tracked render state: frames 1..3, tracked message id 1, started at 0. -/
def stTracked : RenderState := ⟨0, some 1, ∅, 3, 1, 3, 0, 2⟩

/-- A `CURRENT_RENDERS` with `stTracked` under path `"n"`. -/
def mTracked : RMap := fun k => if k = "n" then some stTracked else none

/-- A render state whose whole range collapsed: `total_frames = 0`, no
completed frames, tracked message id 7. -/
def stZero : RenderState := ⟨0, some 7, ∅, 0, 2, 1, 0, 2⟩

/-- A `CURRENT_RENDERS` with `stZero` under path `"n"`. -/
def mZero : RMap := fun k => if k = "n" then some stZero else none

/-- A render state that has completed both frames of its 1..2 range. -/
def stDone : RenderState := ⟨0, some 1, {1, 2}, 2, 1, 2, 0, 2⟩

/-- A `CURRENT_RENDERS` with `stDone` under path `"n"`. -/
def mDone : RMap := fun k => if k = "n" then some stDone else none

/-- The render state produced by `initialize_render_state invertedNode 0`
followed by the recording of message id 1. -/
def stInverted : RenderState := ⟨0, some 1, ∅, -8, 10, 1, 0, 2⟩

/-- A world whose glob finds exactly one frame file. -/
def oneFrameWorld : World := ⟨some 1, true, true, fun _ => ["a.png"], fun _ => true⟩

/-! ### Basic lemmas -/

theorem pyInt_intCast (k : ℤ) : pyInt (k : ℚ) = k := by
  unfold pyInt
  split <;> simp

theorem dictSet_self (m : RMap) (k : String) (v : RenderState) : dictSet m k v k = some v := by
  simp [dictSet]

theorem dictSet_ne (m : RMap) (k : String) (v : RenderState) (k' : String) (h : k' ≠ k) :
    dictSet m k v k' = m k' := by
  simp [dictSet, h]

theorem dictDel_self (m : RMap) (k : String) : dictDel m k k = none := by
  simp [dictDel]

theorem dictDel_ne (m : RMap) (k k' : String) (h : k' ≠ k) : dictDel m k k' = m k' := by
  simp [dictDel, h]

theorem sdictSet_self (m : SMap) (k : String) (v : SessionStats) : sdictSet m k v k = some v := by
  simp [sdictSet]

theorem get_node_name_ok_of_path_ok {node : Node} {p : String} (hp : node.path = .ok p) :
    ∃ nm, get_node_name node = .ok nm := by
  unfold get_node_name
  cases hn : node.name with
  | ok n => exact ⟨n, rfl⟩
  | error u => exact ⟨p, hp⟩

theorem handle_event_error_raised {w : World} {node : Node} {r : RMap} {s : SMap}
    {effs : List Effect} {p : String} (hp : node.path = .ok p) :
    (handle_event_error w node r s effs).raised = false := by
  obtain ⟨nm, hnm⟩ := get_node_name_ok_of_path_ok hp
  unfold handle_event_error
  rw [hnm, hp]
  dsimp only
  split <;> rfl

/-- Claim C7: `should_update_progress` returns `true` exactly when at least
`update_interval` seconds (2.0 in every freshly initialized state) have
elapsed since `last_update_time`; it sets `last_update_time` to the current
time in exactly that case and leaves the state unchanged otherwise, so after
a successful update the next update is refused for one whole interval. -/
theorem should_update_progress_spec (state : RenderState) (now : ℚ) (node : Node) (t0 : ℚ) :
    ((should_update_progress state now).1 = true ↔
      state.update_interval ≤ now - state.last_update_time)
    ∧ ((should_update_progress state now).1 = true →
        (should_update_progress state now).2 = { state with last_update_time := now })
    ∧ ((should_update_progress state now).1 = false →
        (should_update_progress state now).2 = state)
    ∧ (initialize_render_state node t0).update_interval = 2
    ∧ (∀ t2, (should_update_progress state now).1 = true →
        t2 - now < (should_update_progress state now).2.update_interval →
        (should_update_progress (should_update_progress state now).2 t2).1 = false) := by
  by_cases hle : state.update_interval ≤ now - state.last_update_time
  · refine ⟨?_, ?_, ?_, rfl, ?_⟩
    · simp [should_update_progress, hle]
    · intro _; simp [should_update_progress, hle]
    · intro hf; simp [should_update_progress, hle] at hf
    · intro t2 _ h2
      have hlt : t2 - now < state.update_interval := by
        simpa [should_update_progress, hle] using h2
      simp [should_update_progress, hle, not_le.mpr hlt]
  · refine ⟨?_, ?_, ?_, rfl, ?_⟩
    · simp [should_update_progress, hle]
    · intro h1; simp [should_update_progress, hle] at h1
    · intro _; simp [should_update_progress, hle]
    · intro t2 h1 _; simp [should_update_progress, hle] at h1

/-- Witness for C7 at a concrete state and times. -/
theorem should_update_progress_spec_witness :
    (should_update_progress stTracked 5).2 = { stTracked with last_update_time := 5 }
    ∧ (should_update_progress (should_update_progress stTracked 5).2 6).1 = false :=
  ⟨(should_update_progress_spec stTracked 5 sampleNode 0).2.1
     (by norm_num [should_update_progress, stTracked]),
   (should_update_progress_spec stTracked 5 sampleNode 0).2.2.2.2 6
     (by norm_num [should_update_progress, stTracked])
     (by norm_num [should_update_progress, stTracked])⟩

/-- Claim C10: when `trange` is absent, evaluates to zero, or fails to
evaluate, `get_sequence_range` returns `(1, 1)`; and whenever the evaluated
range satisfies `start ≤ end`, the initialized `total_frames` is at least 1,
so it is nonzero as the divisor used in the `PostFrame` progress math. -/
theorem get_sequence_range_total_frames_pos (node : Node) (now : ℚ) :
    (node.has_trange = false → get_sequence_range node = (1, 1))
    ∧ (node.trange = .error () → get_sequence_range node = (1, 1))
    ∧ (node.trange = .ok 0 → get_sequence_range node = (1, 1))
    ∧ ((get_sequence_range node).1 ≤ (get_sequence_range node).2 →
        1 ≤ (initialize_render_state node now).total_frames
        ∧ ((initialize_render_state node now).total_frames : ℚ) ≠ 0) := by
  refine ⟨?_, ?_, ?_, ?_⟩
  · intro h; unfold get_sequence_range; rw [h]; rfl
  · intro h; unfold get_sequence_range; rw [h]
    split <;> rfl
  · intro h; unfold get_sequence_range; rw [h]
    split <;> simp
  · intro h
    have h1 : (1 : ℚ) ≤ (get_sequence_range node).2 - (get_sequence_range node).1 + 1 := by
      linarith
    have h2 : 1 ≤ (initialize_render_state node now).total_frames := by
      simp only [initialize_render_state, pyInt]
      rw [if_pos (by linarith)]
      exact Int.le_floor.mpr (by exact_mod_cast h1)
    exact ⟨h2, Int.cast_ne_zero.mpr (by omega)⟩

/-- Witness for C10: a node without a `trange` parameter gets range `(1, 1)`
and a positive frame count. -/
theorem get_sequence_range_total_frames_pos_witness :
    get_sequence_range lostNode = (1, 1)
    ∧ 1 ≤ (initialize_render_state lostNode 0).total_frames :=
  ⟨(get_sequence_range_total_frames_pos lostNode 0).1 (by rfl),
   ((get_sequence_range_total_frames_pos lostNode 0).2.2.2
      (by norm_num [get_sequence_range, lostNode])).1⟩


theorem run_update_stats_spec (node_path : String) (calls : List (ℚ × ℕ)) (hne : calls ≠ []) :
    run_update_stats node_path calls node_path = some (expectedStats calls) := by
  induction calls using List.reverseRecOn with
  | nil => simp at hne
  | append_singleton l c ih =>
    have hfold : run_update_stats node_path (l ++ [c]) =
        update_render_stats (run_update_stats node_path l) node_path c.1 c.2 := by
      simp [run_update_stats, List.foldl_append]
    rcases eq_or_ne l [] with rfl | hl
    · simp [hfold, run_update_stats, update_render_stats, expectedStats, sdictSet]
    · have ih' := ih hl
      rw [hfold]
      unfold update_render_stats
      rw [ih']
      simp only [expectedStats]
      by_cases hn : l.length ≤ 9
      · have e1 : l.length - 10 = 0 := by omega
        have e2 : l.length + 1 - 10 = 0 := by omega
        rw [if_neg (by simp; omega)]
        simp [sdictSet, SessionStats.mk.injEq, e1, e2]
      · have h10 : 10 ≤ l.length := by omega
        have hne2 : ((l.map Prod.fst).drop (l.length - 10)) ≠ [] := by
          intro hc
          have hlc := congrArg List.length hc
          simp at hlc
          omega
        rw [if_pos (by simp; omega)]
        rw [List.tail_append_of_ne_nil hne2, List.tail_drop]
        have e3 : l.length + 1 - 10 = l.length - 10 + 1 := by omega
        have e5 : l.length - 10 + 1 - l.length = 0 := by omega
        simp [sdictSet, SessionStats.mk.injEq, List.drop_append_eq_append_drop, e3, e5]

/-- Claim C9: after every `update_render_stats` call for a node path, the
session entry holds at most the last 10 render durations (oldest dropped
first), while `total_renders`, `frames_rendered` and `total_time` accumulate
over all calls without truncation. -/
theorem update_render_stats_history_bounded (node_path : String) (calls : List (ℚ × ℕ))
    (hne : calls ≠ []) :
    ∃ stats, run_update_stats node_path calls node_path = some stats
      ∧ stats.times.length ≤ 10
      ∧ stats.times = (calls.map Prod.fst).drop (calls.length - 10)
      ∧ stats.total_renders = calls.length
      ∧ stats.frames_rendered = (calls.map Prod.snd).sum
      ∧ stats.total_time = (calls.map Prod.fst).sum :=
  ⟨expectedStats calls, run_update_stats_spec node_path calls hne,
   by simp [expectedStats]; omega, rfl, rfl, rfl, rfl⟩

/-- Witness for C9 at a single concrete call. -/
theorem update_render_stats_history_bounded_witness :
    ∃ stats, run_update_stats "n" [(5, 1)] "n" = some stats
      ∧ stats.times.length ≤ 10
      ∧ stats.times = ([(5, 1)].map Prod.fst).drop ([(5, 1)].length - 10)
      ∧ stats.total_renders = [(5, 1)].length
      ∧ stats.frames_rendered = ([((5 : ℚ), 1)].map Prod.snd).sum
      ∧ stats.total_time = ([((5 : ℚ), (1 : ℕ))].map Prod.fst).sum :=
  update_render_stats_history_bounded "n" [(5, 1)] (by simp)


theorem handle_pre_render_raised {w : World} {node : Node} {q : String} {renders : RMap}
    {session : SMap} {now : ℚ} {p : String} (hp : node.path = .ok p) :
    (handle_pre_render w node q renders session now).raised = false := by
  unfold handle_pre_render
  dsimp only
  split
  · rfl
  · split
    · exact handle_event_error_raised hp
    · split <;> rfl

theorem handle_post_frame_raised {w : World} {node : Node} {q : String} {renders : RMap}
    {session : SMap} {ft now : ℚ} {p : String} (hp : node.path = .ok p) :
    (handle_post_frame w node q renders session ft now).raised = false := by
  unfold handle_post_frame
  dsimp only
  split
  · rfl
  · split
    · split
      · exact handle_event_error_raised hp
      · split
        · exact handle_event_error_raised hp
        · split <;> rfl
    · rfl

theorem handle_post_render_raised {w : World} {node : Node} {q : String} {renders : RMap}
    {session : SMap} {now : ℚ} {p : String} (hp : node.path = .ok p) :
    (handle_post_render w node q renders session now).raised = false := by
  unfold handle_post_render
  dsimp only
  split
  · rfl
  · split
    · split
      · exact handle_event_error_raised hp
      · rfl
    · split
      · split
        · exact handle_event_error_raised hp
        · split
          · exact handle_event_error_raised hp
          · rfl
      · split
        · exact handle_event_error_raised hp
        · rfl

/-- Claim C5 (amended): `on_render_event` propagates no exception to the host
as long as the node's `path()` call succeeds: every internal failure is caught
by the handler.  (When `node.path()` itself raises, the `except` handler calls
`get_node_name`/`node.path()` unprotected and re-raises; see the
counterexample.) -/
theorem on_render_event_no_raise_when_path_ok {w : World} {enabled : Bool} {renders : RMap}
    {session : SMap} {node : Node} {evt : RopRenderEventType} {ft now : ℚ} {p : String}
    (hp : node.path = .ok p) :
    (on_render_event w enabled renders session node evt ft now).raised = false := by
  unfold on_render_event
  split
  · rfl
  · rw [hp]
    dsimp only
    cases evt with
    | PreRender => exact handle_pre_render_raised hp
    | PreFrame => rfl
    | PostFrame => exact handle_post_frame_raised hp
    | PostRender => exact handle_post_render_raised hp

/-- Witness for C5 (amended) on a healthy node. -/
theorem on_render_event_no_raise_when_path_ok_witness :
    (on_render_event sampleWorld true emptyRMap emptySMap sampleNode .PreRender 0 0).raised
      = false :=
  on_render_event_no_raise_when_path_ok (p := "n") (by rfl)

/-- Counterexample to C5 as stated: for a node whose `path()` raises (as a
deleted node does), the handler itself raises again and the exception
propagates to the host, with no error report sent. -/
theorem on_render_event_raises_on_lost_node :
    (on_render_event sampleWorld true emptyRMap emptySMap lostNode .PreRender 0 0).raised = true
    ∧ (on_render_event sampleWorld true emptyRMap emptySMap lostNode .PreRender 0 0).effects
        = [] :=
  ⟨rfl, rfl⟩


theorem handle_post_render_deletes {w : World} {node : Node} {renders : RMap} {session : SMap}
    {now : ℚ} {p : String} {st : RenderState} (hp : node.path = .ok p)
    (hm : renders p = some st) :
    (handle_post_render w node p renders session now).renders p = none := by
  obtain ⟨nm, hnm⟩ := get_node_name_ok_of_path_ok hp
  unfold handle_post_render
  rw [hm]
  dsimp only
  split
  · rw [hnm]
    dsimp only
    simp [dictDel]
  · split
    · split
      · unfold handle_event_error
        rw [hnm, hp]
        dsimp only
        rw [if_pos (by simp [hm])]
        simp [dictDel]
      · rw [hnm]
        dsimp only
        simp [dictDel]
    · rw [hnm]
      dsimp only
      simp [dictDel]

/-- Claim C4: a `PreRender` event creates a node's `CURRENT_RENDERS` entry
only when none exists — for an already tracked node it returns with both
dictionaries untouched, no effects and no exception — and a handled
`PostRender` event for a tracked node always ends with that node's entry
deleted, so render state never outlives a single render. -/
theorem current_renders_lifecycle {w : World} {renders : RMap} {session : SMap} {node : Node}
    {p : String} {st : RenderState} {ft now : ℚ} (hp : node.path = .ok p) :
    (renders p = some st →
      on_render_event w true renders session node .PreRender ft now
        = ⟨renders, session, [], false⟩)
    ∧ (renders p = none →
        (on_render_event w true renders session node .PreRender ft now).renders p ≠ none)
    ∧ (renders p = some st →
        (on_render_event w true renders session node .PostRender ft now).renders p = none) := by
  refine ⟨?_, ?_, ?_⟩
  · intro hm
    unfold on_render_event handle_pre_render
    rw [hp]
    dsimp only
    rw [hm]
    rfl
  · intro hm
    obtain ⟨nm, hnm⟩ := get_node_name_ok_of_path_ok hp
    unfold on_render_event handle_pre_render send_telegram_message
    rw [hp]
    dsimp only
    simp only [hm, Option.isSome_none, Bool.false_eq_true, if_false]
    rw [hnm]
    dsimp only
    cases hw : w.sendReply <;> simp [hw, dictSet]
  · intro hm
    unfold on_render_event
    rw [hp]
    dsimp only
    exact handle_post_render_deletes hp hm

/-- Witness for C4 at a concrete tracked node. -/
theorem current_renders_lifecycle_witness :
    (on_render_event sampleWorld true mTracked emptySMap sampleNode .PreRender 0 0)
      = ⟨mTracked, emptySMap, [], false⟩
    ∧ (on_render_event sampleWorld true mTracked emptySMap sampleNode .PostRender 0 5).renders "n"
        = none :=
  ⟨(current_renders_lifecycle (by rfl)).1 (by rfl),
   (current_renders_lifecycle (by rfl)).2.2 (by rfl)⟩


theorem should_update_progress_fields (state : RenderState) (now : ℚ) :
    (should_update_progress state now).2.completed_frames = state.completed_frames
    ∧ (should_update_progress state now).2.total_frames = state.total_frames
    ∧ (should_update_progress state now).2.message_id = state.message_id := by
  unfold should_update_progress
  dsimp only
  split <;> simp

theorem handle_post_frame_state {w : World} {node : Node} {p : String} {renders : RMap}
    {session : SMap} {ft now : ℚ} {st : RenderState}
    (hp : node.path = .ok p) (hm : renders p = some st) (ht : st.total_frames ≠ 0) :
    (handle_post_frame w node p renders session ft now).renders
        = dictSet renders p
            (should_update_progress
              { st with completed_frames := insert ft st.completed_frames } now).2
    ∧ (handle_post_frame w node p renders session ft now).session = session := by
  obtain ⟨nm, hnm⟩ := get_node_name_ok_of_path_ok hp
  unfold handle_post_frame
  rw [hm]
  dsimp only
  split
  · rw [if_neg (by
      rw [(should_update_progress_fields
        { st with completed_frames := insert ft st.completed_frames } now).2.1]
      simpa using ht)]
    rw [hnm]
    dsimp only
    split <;> exact ⟨rfl, rfl⟩
  · exact ⟨rfl, rfl⟩

theorem post_frame_step (w : World) (session : SMap) (ft now : ℚ) {node : Node} {p : String}
    {renders : RMap} {st : RenderState}
    (hp : node.path = .ok p) (hm : renders p = some st) (ht : st.total_frames ≠ 0) :
    (on_render_event w true renders session node .PostFrame ft now).renders
        = dictSet renders p
            (should_update_progress
              { st with completed_frames := insert ft st.completed_frames } now).2
    ∧ (on_render_event w true renders session node .PostFrame ft now).session = session := by
  unfold on_render_event
  rw [hp]
  dsimp only
  exact handle_post_frame_state hp hm ht

theorem run_post_frames_spec (w : World) {node : Node} {p : String}
    (hp : node.path = .ok p) (events : List (ℚ × ℚ)) :
    ∀ (renders : RMap) (session : SMap) (st : RenderState),
      renders p = some st → st.total_frames ≠ 0 →
      ∃ st', (run_post_frames w node renders session events).renders p = some st'
        ∧ st'.completed_frames = st.completed_frames ∪ (events.map Prod.fst).toFinset
        ∧ st'.total_frames = st.total_frames := by
  induction events with
  | nil =>
    intro renders session st hm ht
    exact ⟨st, by simpa [run_post_frames], by simp, rfl⟩
  | cons ev rest ih =>
    intro renders session st hm ht
    obtain ⟨hr, hs⟩ := post_frame_step w session ev.1 ev.2 hp hm ht
    set st1 := (should_update_progress
      { st with completed_frames := insert ev.1 st.completed_frames } ev.2).2 with hst1
    have hfields := should_update_progress_fields
      { st with completed_frames := insert ev.1 st.completed_frames } ev.2
    have hm1 : (on_render_event w true renders session node .PostFrame ev.1 ev.2).renders p
        = some st1 := by
      rw [hr]
      simp [dictSet]
    have ht1 : st1.total_frames ≠ 0 := by
      rw [← hst1] at hfields
      rw [hfields.2.1]
      simpa using ht
    obtain ⟨st', h1, h2, h3⟩ := ih _ _ st1 hm1 ht1
    refine ⟨st', ?_, ?_, ?_⟩
    · simpa [run_post_frames] using h1
    · rw [h2, ← hst1] at *
      rw [hfields.1]
      simp [Finset.insert_union, Finset.union_insert]
    · rw [h3, ← hst1] at *
      rw [hfields.2.1]

/-- Claim C3 (amended): provided the tracked state's total frame count is
nonzero, delivering the same `PostFrame` frame time twice leaves the
completed-frame count unchanged, and the count after any sequence of
`PostFrame` events depends only on the set of distinct frame times delivered,
not on their order or multiplicity.  (At a zero-total state a duplicate
`PostFrame` can take the `ZeroDivisionError` path, which deletes the render
state; see the counterexample.) -/
theorem post_frame_dedup_order_independent {w : World} {node : Node} {p : String}
    {renders : RMap} {session : SMap} {st : RenderState}
    (hp : node.path = .ok p) (hm : renders p = some st) (ht : st.total_frames ≠ 0) :
    (∀ ft t1 t2,
      completedCount (run_post_frames w node renders session [(ft, t1), (ft, t2)]).renders p
        = completedCount (run_post_frames w node renders session [(ft, t1)]).renders p)
    ∧ ∀ l1 l2 : List (ℚ × ℚ), (l1.map Prod.fst).toFinset = (l2.map Prod.fst).toFinset →
        completedCount (run_post_frames w node renders session l1).renders p
          = completedCount (run_post_frames w node renders session l2).renders p := by
  have key : ∀ l : List (ℚ × ℚ),
      completedCount (run_post_frames w node renders session l).renders p
        = (st.completed_frames ∪ (l.map Prod.fst).toFinset).card := by
    intro l
    obtain ⟨st', h1, h2, h3⟩ := run_post_frames_spec w hp l renders session st hm ht
    simp [completedCount, h1, h2]
  refine ⟨?_, ?_⟩
  · intro ft t1 t2
    rw [key, key]
    simp
  · intro l1 l2 h12
    rw [key, key, h12]

/-- Witness for C3: a duplicated frame 2 gives the same count as one. -/
theorem post_frame_dedup_order_independent_witness :
    completedCount
        (run_post_frames sampleWorld sampleNode mTracked emptySMap [(2, 3), (2, 5)]).renders "n"
      = completedCount
        (run_post_frames sampleWorld sampleNode mTracked emptySMap [(2, 3)]).renders "n" :=
  (post_frame_dedup_order_independent (by rfl) (by rfl) (by decide)).1 2 3 5


theorem handle_event_error_effects (w : World) (node : Node) (renders : RMap) (session : SMap)
    (effs : List Effect) :
    (handle_event_error w node renders session effs).effects = effs
    ∨ ∃ nm, (handle_event_error w node renders session effs).effects
        = effs ++ [Effect.send (Msg.errorReport nm)] := by
  unfold handle_event_error send_telegram_message
  dsimp only
  split
  · exact Or.inl rfl
  · right
    split
    · exact ⟨_, rfl⟩
    · split <;> exact ⟨_, rfl⟩

theorem edit_not_mem_handle_event_error {w : World} {node : Node} {renders : RMap}
    {session : SMap} {effs : List Effect} {mid : ℕ} {msg : Msg}
    (h : Effect.edit mid msg ∉ effs) :
    Effect.edit mid msg ∉ (handle_event_error w node renders session effs).effects := by
  rcases handle_event_error_effects w node renders session effs with h1 | ⟨nm, h1⟩ <;>
    simp [h1, h]

/-- Claim C6: every `PostFrame` progress edit reports a progress percent
equal to `frames_done / total_frames × 100`, an average per frame equal to
`elapsed / frames_done`, and a remaining time equal to
`max 0 (average × total_frames − elapsed)` — hence never negative. -/
theorem post_frame_progress_math (w : World) (renders : RMap) (session : SMap) (node : Node)
    (ft now : ℚ) (mid : ℕ) (e nm : String) (fd : ℕ) (tot : ℤ) (pct : ℚ) (bar : String)
    (dur rem avg : ℚ)
    (hmem : Effect.edit mid (Msg.renderProgress e nm fd tot pct bar dur rem avg)
      ∈ (on_render_event w true renders session node .PostFrame ft now).effects)
    (hfd : 0 < fd) :
    pct = ((fd : ℚ) / (tot : ℚ)) * 100
    ∧ avg = dur / (fd : ℚ)
    ∧ rem = max 0 (avg * (tot : ℚ) - dur)
    ∧ 0 ≤ rem := by
  unfold on_render_event at hmem
  rw [if_neg (by simp)] at hmem
  revert hmem
  split
  · intro hmem
    exact absurd hmem (edit_not_mem_handle_event_error (by simp))
  · dsimp only
    intro hmem
    unfold handle_post_frame at hmem
    revert hmem
    split
    · intro hmem
      simp at hmem
    · dsimp only
      split
      · split
        · intro hmem
          exact absurd hmem (edit_not_mem_handle_event_error (by simp))
        · split
          · intro hmem
            exact absurd hmem (edit_not_mem_handle_event_error (by simp))
          · split
            · intro hmem
              cases hE : w.editOk <;>
                simp only [hE, Bool.false_eq_true, if_false, if_true, List.cons_append,
                  List.nil_append, List.append_nil, List.mem_cons, List.mem_singleton,
                  List.not_mem_nil, or_false] at hmem
              · rcases hmem with h | h
                · simp only [Effect.edit.injEq, Msg.renderProgress.injEq] at h
                  obtain ⟨-, -, -, h4, h5, h6, -, h8, h9, h10⟩ := h
                  subst h4 h5 h6 h8 h9 h10
                  refine ⟨rfl, ?_, rfl, le_max_left _ _⟩
                  rw [if_pos hfd]
                · exact absurd h (by simp)
              · simp only [Effect.edit.injEq, Msg.renderProgress.injEq] at hmem
                obtain ⟨-, -, -, h4, h5, h6, -, h8, h9, h10⟩ := hmem
                subst h4 h5 h6 h8 h9 h10
                refine ⟨rfl, ?_, rfl, le_max_left _ _⟩
                rw [if_pos hfd]
            · intro hmem
              simp at hmem
      · intro hmem
        simp at hmem


/-- Witness for C6 at a concrete progress update (1 of 3 frames, 5 seconds). -/
theorem post_frame_progress_math_witness :
    (100 / 3 : ℚ) = ((1 : ℕ) : ℚ) / ((3 : ℤ) : ℚ) * 100
    ∧ (5 : ℚ) = 5 / ((1 : ℕ) : ℚ)
    ∧ (10 : ℚ) = max 0 (5 * ((3 : ℤ) : ℚ) - 5)
    ∧ (0 : ℚ) ≤ 10 :=
  post_frame_progress_math sampleWorld mTracked emptySMap sampleNode 1 5 1 "Mantra" "n1"
    1 3 (100 / 3) "🟩🟩🟩⬜⬜⬜⬜⬜⬜⬜" 5 10 5
    (by
      norm_num [on_render_event, handle_post_frame, mTracked, stTracked, sampleNode,
        sampleWorld, should_update_progress, get_node_name, get_render_engine,
        get_progress_bar, pyRound, strRepeat, dictSet, String.join]
      rfl)
    (by norm_num)


theorem card_le_of_stateInv {st : RenderState} (h : stateInv st) :
    (st.completed_frames.card : ℤ) ≤ st.total_frames := by
  obtain ⟨hmem, hle, htot⟩ := h
  have hsub : st.completed_frames.image (fun x : ℚ => ⌊x⌋)
      ⊆ Finset.Icc st.start_frame st.end_frame := by
    intro k hk
    simp only [Finset.mem_image] at hk
    obtain ⟨x, hx, rfl⟩ := hk
    obtain ⟨j, rfl, h1, h2⟩ := hmem x hx
    simp [Finset.mem_Icc, Int.floor_intCast, h1, h2]
  have hinj : Set.InjOn (fun x : ℚ => ⌊x⌋) st.completed_frames := by
    intro a ha b hb hab
    obtain ⟨ja, rfl, -, -⟩ := hmem a ha
    obtain ⟨jb, rfl, -, -⟩ := hmem b hb
    simpa [Int.floor_intCast] using hab
  have h1 : st.completed_frames.card = (st.completed_frames.image (fun x : ℚ => ⌊x⌋)).card :=
    (Finset.card_image_of_injOn hinj).symm
  have h2 := Finset.card_le_card hsub
  have h3 : ((Finset.Icc st.start_frame st.end_frame).card : ℤ)
      = st.end_frame + 1 - st.start_frame := Int.card_Icc_of_le _ _ (by omega)
  rw [h1]
  calc ((st.completed_frames.image (fun x : ℚ => ⌊x⌋)).card : ℤ)
      ≤ ((Finset.Icc st.start_frame st.end_frame).card : ℤ) := by exact_mod_cast h2
    _ = st.end_frame + 1 - st.start_frame := h3
    _ ≤ st.total_frames := by omega

theorem stateInv_message_id {st : RenderState} {m : Option ℕ} (h : stateInv st) :
    stateInv { st with message_id := m } := by
  obtain ⟨h1, h2, h3⟩ := h
  exact ⟨fun x hx => h1 x hx, h2, h3⟩

theorem stateInv_insert {st : RenderState} {x : ℚ} (h : stateInv st) (hx : intFrame st x) :
    stateInv { st with completed_frames := insert x st.completed_frames } := by
  obtain ⟨h1, h2, h3⟩ := h
  refine ⟨?_, h2, h3⟩
  intro y hy
  rcases Finset.mem_insert.mp hy with rfl | hy2
  · exact hx
  · exact h1 y hy2

theorem stateInv_should_update {st : RenderState} {now : ℚ} (h : stateInv st) :
    stateInv (should_update_progress st now).2 := by
  unfold should_update_progress
  dsimp only
  split
  · obtain ⟨h1, h2, h3⟩ := h
    exact ⟨fun x hx => h1 x hx, h2, h3⟩
  · exact h

theorem initialize_stateInv {node : Node} {now : ℚ} (h : goodRange node) :
    stateInv (initialize_render_state node now) := by
  obtain ⟨si, ei, hse, hle⟩ := h
  have h3 : pyInt ((ei : ℚ) - (si : ℚ) + 1) = ei - si + 1 := by
    rw [show ((ei : ℚ) - (si : ℚ) + 1) = ((ei - si + 1 : ℤ) : ℚ) by push_cast; ring]
    exact pyInt_intCast _
  unfold initialize_render_state stateInv
  rw [hse]
  dsimp only
  refine ⟨by simp, ?_, ?_⟩
  · rw [pyInt_intCast, pyInt_intCast]
    exact hle
  · rw [h3, pyInt_intCast, pyInt_intCast]

theorem mapInv_dictSet {m : RMap} {k : String} {v : RenderState}
    (hm : mapInv m) (hv : stateInv v) : mapInv (dictSet m k v) := by
  intro p st hp
  unfold dictSet at hp
  split at hp
  · cases hp; exact hv
  · exact hm p st hp

theorem mapInv_dictDel {m : RMap} {k : String} (hm : mapInv m) : mapInv (dictDel m k) := by
  intro p st hp
  unfold dictDel at hp
  split at hp
  · cases hp
  · exact hm p st hp

theorem handle_event_error_renders (w : World) (node : Node) (renders : RMap) (session : SMap)
    (effs : List Effect) :
    (handle_event_error w node renders session effs).renders = renders
    ∨ ∃ q, (handle_event_error w node renders session effs).renders = dictDel renders q := by
  unfold handle_event_error
  dsimp only
  split
  · exact Or.inl rfl
  · split
    · exact Or.inl rfl
    · split
      · exact Or.inr ⟨_, rfl⟩
      · exact Or.inl rfl

theorem mapInv_handle_event_error {w : World} {node : Node} {renders : RMap} {session : SMap}
    {effs : List Effect} (hm : mapInv renders) :
    mapInv (handle_event_error w node renders session effs).renders := by
  rcases handle_event_error_renders w node renders session effs with h | ⟨q, h⟩
  · rw [h]; exact hm
  · rw [h]; exact mapInv_dictDel hm


/-- Claim C2 (amended): provided every `PreRender` node's evaluated sequence
range has integer endpoints with `start ≤ end`, and every `PostFrame` frame
time is integral and within the tracked state's `start_frame..end_frame`
range, each `on_render_event` call preserves the dictionary invariant, and
under it every tracked state satisfies `frame set size ≤ total frame count`. -/
theorem frame_set_size_le_total_invariant (w : World) (enabled : Bool) (renders : RMap)
    (session : SMap) (node : Node) (evt : RopRenderEventType) (ft now : ℚ)
    (hinv : mapInv renders)
    (hpre : evt = .PreRender → goodRange node)
    (hpf : ∀ p st, evt = .PostFrame → node.path = .ok p → renders p = some st →
      intFrame st ft) :
    mapInv (on_render_event w enabled renders session node evt ft now).renders
    ∧ ∀ p st, (on_render_event w enabled renders session node evt ft now).renders p = some st →
        (st.completed_frames.card : ℤ) ≤ st.total_frames := by
  suffices main : mapInv (on_render_event w enabled renders session node evt ft now).renders by
    exact ⟨main, fun p st hp => card_le_of_stateInv (main p st hp)⟩
  unfold on_render_event
  split
  · exact hinv
  · split
    · exact mapInv_handle_event_error hinv
    · next q hpath =>
      split
      · unfold handle_pre_render
        dsimp only
        split
        · exact hinv
        · have hgood : stateInv (initialize_render_state node now) :=
            initialize_stateInv (hpre rfl)
          split
          · exact mapInv_handle_event_error (mapInv_dictSet hinv hgood)
          · split
            · exact mapInv_dictSet (mapInv_dictSet hinv hgood) (stateInv_message_id hgood)
            · exact mapInv_dictSet hinv hgood
      · unfold handle_post_frame
        dsimp only
        split
        · exact hinv
        · next st hst =>
          have hframe : intFrame st ft := hpf q st rfl hpath hst
          have hst1 : stateInv (should_update_progress
              { st with completed_frames := insert ft st.completed_frames } now).2 :=
            stateInv_should_update (stateInv_insert (hinv q st hst) hframe)
          have hmd : mapInv (dictSet renders q (should_update_progress
              { st with completed_frames := insert ft st.completed_frames } now).2) :=
            mapInv_dictSet hinv hst1
          split
          · split
            · exact mapInv_handle_event_error hmd
            · split
              · exact mapInv_handle_event_error hmd
              · split
                · exact hmd
                · exact hmd
          · exact hmd
      · unfold handle_post_render
        dsimp only
        split
        · exact hinv
        · split
          · split
            · exact mapInv_handle_event_error hinv
            · exact mapInv_dictDel hinv
          · split
            · split
              · exact mapInv_handle_event_error hinv
              · split
                · exact mapInv_handle_event_error hinv
                · exact mapInv_dictDel hinv
            · split
              · exact mapInv_handle_event_error hinv
              · exact mapInv_dictDel hinv
      · exact hinv


/-- Witness for C2 (amended) at a concrete well-ranged `PreRender`. -/
theorem frame_set_size_le_total_invariant_witness :
    mapInv (on_render_event sampleWorld true emptyRMap emptySMap sampleNode
        .PreRender 0 0).renders
    ∧ ∀ p st, (on_render_event sampleWorld true emptyRMap emptySMap sampleNode
        .PreRender 0 0).renders p = some st →
          (st.completed_frames.card : ℤ) ≤ st.total_frames :=
  frame_set_size_le_total_invariant sampleWorld true emptyRMap emptySMap sampleNode
    .PreRender 0 0
    (fun _ _ hp => nomatch hp)
    (fun _ => ⟨1, 3, by norm_num [get_sequence_range, sampleNode], by norm_num⟩)
    (fun _ _ h _ _ => absurd h (by decide))

/-- Counterexample to C2 as stated: a `PreRender` on a node whose frame range
evaluates inverted (`f1 = 10`, `f2 = 1`) creates a state with
`total_frames = -8`, so the empty completed set already violates
`frame set size ≤ total frame count`. -/
theorem frame_set_size_le_total_counterexample :
    (on_render_event sampleWorld true emptyRMap emptySMap invertedNode
        .PreRender 0 0).renders "bad" = some stInverted
    ∧ ¬ ((stInverted.completed_frames.card : ℤ) ≤ stInverted.total_frames) := by
  constructor
  · norm_num [on_render_event, handle_pre_render, invertedNode, emptyRMap, sampleWorld,
      initialize_render_state, get_sequence_range, get_node_name, get_render_engine,
      send_telegram_message, dictSet, stInverted, pyInt]
    rw [show ((-8 : ℚ)) = ((-8 : ℤ) : ℚ) by norm_num, Int.ceil_intCast]
  · norm_num [stInverted]


theorem update_render_stats_self (s : SMap) (q : String) (d : ℚ) (n : ℕ) :
    ∃ stats, update_render_stats s q d n q = some stats ∧ stats.times ≠ [] := by
  unfold update_render_stats
  dsimp only
  refine ⟨_, sdictSet_self _ _ _, ?_⟩
  split
  · next hlen =>
    intro hc
    have hlc := congrArg List.length hc
    simp at hlc
    simp [hlc] at hlen
  · simp

theorem get_render_stats_after_update (s : SMap) (q : String) (d : ℚ) (n : ℕ) :
    ∃ v, get_render_stats (update_render_stats s q d n) q = some v := by
  obtain ⟨stats, h1, h2⟩ := update_render_stats_self s q d n
  unfold get_render_stats
  rw [h1]
  dsimp only
  rw [if_neg h2]
  exact ⟨_, rfl⟩


/-- Claim C1 (amended): for a tracked node with a tracked message, a
`PostRender` event reports completion (the completion message plus the
separate "RENDER FINISHED!" send) exactly when the number of distinct
completed frame times equals `total_frames`; a count strictly between zero
and the total reports an interrupted render; and a zero count with a nonzero
total reports a failed render (a zero count with a zero total is reported as
complete). -/
theorem post_render_outcome (w : World) (renders : RMap) (session : SMap) (node : Node)
    (p : String) (st : RenderState) (mid : ℕ) (ft now : ℚ)
    (hp : node.path = .ok p) (hm : renders p = some st) (hmid : st.message_id = some mid) :
    (((on_render_event w true renders session node .PostRender ft now).effects.any
          (reports Msg.isComplete) = true
      ∧ (on_render_event w true renders session node .PostRender ft now).effects.any
          (reports Msg.isFinished) = true)
      ↔ (st.completed_frames.card : ℤ) = st.total_frames)
    ∧ (0 < st.completed_frames.card ∧ (st.completed_frames.card : ℤ) < st.total_frames →
        (on_render_event w true renders session node .PostRender ft now).effects.any
          (reports Msg.isInterrupted) = true)
    ∧ (st.completed_frames.card = 0 ∧ st.total_frames ≠ 0 →
        (on_render_event w true renders session node .PostRender ft now).effects.any
          (reports Msg.isFailed) = true) := by
  obtain ⟨nm, hnm⟩ := get_node_name_ok_of_path_ok hp
  obtain ⟨view, hview⟩ := get_render_stats_after_update session p (now - st.start_time)
    st.completed_frames.card
  unfold on_render_event
  rw [if_neg (by simp), hp]
  dsimp only
  unfold handle_post_render
  rw [hm]
  dsimp only
  split
  · next hguard =>
    rw [hnm]
    dsimp only
    rw [hmid]
    refine ⟨⟨?_, ?_⟩, ?_, ?_⟩
    · intro hcf
      exfalso
      cases hE : w.editOk <;>
        simp [hE, reports, Effect.msg, Msg.isComplete] at hcf
    · intro heq
      exfalso
      omega
    · intro _
      cases hE : w.editOk <;>
        simp [hE, reports, Effect.msg, Msg.isInterrupted]
    · intro hc
      exfalso
      omega
  · next hguard =>
    split
    · next heq =>
      rw [hview]
      dsimp only
      rw [hnm]
      dsimp only
      rw [hmid]
      refine ⟨⟨?_, ?_⟩, ?_, ?_⟩
      · intro _
        exact heq
      · intro _
        constructor <;> cases hE : w.editOk <;>
          simp [hE, reports, Effect.msg, Msg.isComplete, Msg.isFinished]
      · intro hb
        exfalso
        omega
      · intro hc
        exfalso
        omega
    · next hne =>
      rw [hnm]
      dsimp only
      rw [hmid]
      refine ⟨⟨?_, ?_⟩, ?_, ?_⟩
      · intro hcf
        exfalso
        cases hE : w.editOk <;>
          simp [hE, reports, Effect.msg, Msg.isComplete] at hcf
      · intro heq
        exact absurd heq hne
      · intro hb
        exact absurd hb hguard
      · intro _
        cases hE : w.editOk <;>
          simp [hE, reports, Effect.msg, Msg.isFailed]


/-- Witness for C1 (amended): both frames of a 2-frame render completed, so
the completion report and the "RENDER FINISHED!" message are sent. -/
theorem post_render_outcome_witness :
    (on_render_event sampleWorld true mDone emptySMap sampleNode .PostRender 0 9).effects.any
        (reports Msg.isComplete) = true
    ∧ (on_render_event sampleWorld true mDone emptySMap sampleNode .PostRender 0 9).effects.any
        (reports Msg.isFinished) = true :=
  (post_render_outcome sampleWorld mDone emptySMap sampleNode "n" stDone 1 0 9
      (by rfl) (by rfl) (by rfl)).1.mpr (by norm_num [stDone])

/-- Counterexample to C1 as stated: with zero completed frames out of a
zero-frame range the handler reports a completed render, not a failed one. -/
theorem post_render_zero_frames_counterexample :
    stZero.completed_frames.card = 0
    ∧ (on_render_event sampleWorld true mZero emptySMap sampleNode .PostRender 0 5).effects.any
        (reports Msg.isFailed) = false
    ∧ (on_render_event sampleWorld true mZero emptySMap sampleNode .PostRender 0 5).effects.any
        (reports Msg.isComplete) = true := by
  refine ⟨by norm_num [stZero], ?_, ?_⟩ <;>
    norm_num [on_render_event, handle_post_render, mZero, stZero, sampleNode, sampleWorld,
      update_render_stats, get_render_stats, sdictSet, emptySMap, completion_preview,
      send_telegram_animation, sortStr, os_dirname, os_basename, os_splitext, os_join,
      rsplitDotHead, strRfind, rfindAux, takeChars, dropChars, allSlash, rstripSlash,
      format_time, pyInt, pyMod, get_node_name, get_render_engine, dictDel, reports,
      Effect.msg, Msg.isFailed, Msg.isComplete, send_telegram_message]


theorem pyRange_lt {a b s : ℕ} (hs : 0 < s) : ∀ i ∈ pyRange a b s, i < b := by
  intro i hi
  unfold pyRange at hi
  rw [if_neg (by omega)] at hi
  simp only [List.mem_map, List.mem_range] at hi
  obtain ⟨j, hj, rfl⟩ := hi
  have h1 : (j + 1) * s ≤ b - a + s - 1 :=
    (Nat.le_div_iff_mul_le hs).mp (Nat.succ_le_of_lt hj)
  have h2 : (j + 1) * s = j * s + s := by ring
  rw [h2] at h1
  generalize j * s = m at h1 ⊢
  omega

theorem mem_pyRange_one {a b i : ℕ} : i ∈ pyRange a b 1 ↔ a ≤ i ∧ i < b := by
  unfold pyRange
  rw [if_neg (by omega)]
  simp only [List.mem_map, List.mem_range, Nat.div_one, Nat.add_sub_cancel, Nat.mul_one]
  constructor
  · rintro ⟨j, hj, rfl⟩
    omega
  · rintro ⟨h1, h2⟩
    exact ⟨i - a, by omega, by omega⟩

theorem sample_indices_lt (frames : List String) (h30 : 30 < frames.length) :
    ∀ i ∈ List.range 10 ++ pyRange 10 (frames.length - 10) ((frames.length - 20) / 10)
        ++ pyRange (frames.length - 10) frames.length 1,
      i < frames.length := by
  intro i hi
  rcases List.mem_append.mp hi with hi2 | hi2
  · rcases List.mem_append.mp hi2 with hi3 | hi3
    · have := List.mem_range.mp hi3
      omega
    · have hstep : 0 < (frames.length - 20) / 10 := by omega
      have := pyRange_lt hstep i hi3
      omega
  · exact (mem_pyRange_one.mp hi2).2

theorem map_getD_sublist {α : Type} (l : List α) (d : α) (is : List ℕ)
    (hs : is.Pairwise (· < ·)) (hb : ∀ i ∈ is, i < l.length) :
    (is.map (fun i => l.getD i d)).Sublist l := by
  have h1 : is.map (fun i => l.getD i d)
      = (is.pmap (fun i hi => (⟨i, hi⟩ : Fin l.length)) hb).map (fun x => l[x]) := by
    rw [List.map_pmap]
    clear hs
    induction is with
    | nil => rfl
    | cons i it ih =>
      have hb2 : ∀ j ∈ it, j < l.length := fun j hj => hb j (List.mem_cons_of_mem i hj)
      simp only [List.pmap, List.map_cons]
      rw [List.getD_eq_getElem l d (hb i (List.mem_cons_self i it))]
      exact congrArg _ (ih hb2)
  rw [h1]
  apply List.map_getElem_sublist
  rw [List.pairwise_pmap]
  exact hs.imp fun hab _ _ => Fin.mk_lt_mk.mpr hab

theorem sampleFrames_sublist (frames : List String) (h30 : 30 < frames.length) :
    (sampleFrames frames).Sublist frames := by
  unfold sampleFrames
  dsimp only
  apply map_getD_sublist
  · exact Finset.sort_sorted_lt _
  · intro i hi
    rw [Finset.mem_sort, List.mem_toFinset] at hi
    exact sample_indices_lt frames h30 i hi

theorem mem_sampleFrames_of_mem_indices {frames : List String} {i : ℕ}
    (hi : i ∈ List.range 10 ++ pyRange 10 (frames.length - 10) ((frames.length - 20) / 10)
      ++ pyRange (frames.length - 10) frames.length 1) :
    frames.getD i "" ∈ sampleFrames frames := by
  unfold sampleFrames
  dsimp only
  apply List.mem_map_of_mem
  rw [Finset.mem_sort, List.mem_toFinset]
  exact hi


theorem media_free_handle_event_error {w : World} {node : Node} {renders : RMap}
    {session : SMap} {effs : List Effect} {eff : Effect}
    (h : eff ∈ (handle_event_error w node renders session effs).effects)
    (hm : eff.isMedia = true) : eff ∈ effs := by
  rcases handle_event_error_effects w node renders session effs with h1 | ⟨nm, h1⟩
  · rwa [h1] at h
  · rw [h1] at h
    rcases List.mem_append.mp h with h2 | h2
    · exact h2
    · rw [List.mem_singleton] at h2
      subst h2
      simp [Effect.isMedia] at hm

theorem media_free_pre_render {w : World} {node : Node} {q : String} {renders : RMap}
    {session : SMap} {now : ℚ} {eff : Effect}
    (h : eff ∈ (handle_pre_render w node q renders session now).effects)
    (hm : eff.isMedia = true) : False := by
  unfold handle_pre_render send_telegram_message at h
  revert h
  dsimp only
  split
  · intro h; simp at h
  · split
    · intro h
      exact absurd (media_free_handle_event_error h hm) (List.not_mem_nil _)
    · split
      · intro h
        rw [List.mem_singleton] at h
        subst h
        simp [Effect.isMedia] at hm
      · intro h
        rw [List.mem_singleton] at h
        subst h
        simp [Effect.isMedia] at hm

theorem media_free_post_frame {w : World} {node : Node} {q : String} {renders : RMap}
    {session : SMap} {ft now : ℚ} {eff : Effect}
    (h : eff ∈ (handle_post_frame w node q renders session ft now).effects)
    (hm : eff.isMedia = true) : False := by
  unfold handle_post_frame at h
  revert h
  dsimp only
  split
  · intro h; simp at h
  · split
    · split
      · intro h
        exact absurd (media_free_handle_event_error h hm) (List.not_mem_nil _)
      · split
        · intro h
          exact absurd (media_free_handle_event_error h hm) (List.not_mem_nil _)
        · split
          · intro h
            rcases List.mem_append.mp h with h2 | h2
            · rw [List.mem_singleton] at h2
              subst h2
              simp [Effect.isMedia] at hm
            · revert h2
              split
              · intro h2; simp at h2
              · intro h2
                rw [List.mem_singleton] at h2
                subst h2
                simp [Effect.isMedia] at hm
          · intro h; simp at h
    · intro h; simp at h

theorem media_implies_completion {w : World} {enabled : Bool} {renders : RMap} {session : SMap}
    {node : Node} {evt : RopRenderEventType} {ft now : ℚ} {eff : Effect}
    (hmem : eff ∈ (on_render_event w enabled renders session node evt ft now).effects)
    (hmedia : eff.isMedia = true) :
    evt = .PostRender ∧ ∃ p st, node.path = .ok p ∧ renders p = some st ∧
      (st.completed_frames.card : ℤ) = st.total_frames := by
  unfold on_render_event at hmem
  revert hmem
  split
  · intro hmem; simp at hmem
  · split
    · intro hmem
      exact absurd (media_free_handle_event_error hmem hmedia) (List.not_mem_nil _)
    · next q hpath =>
      split
      · intro hmem
        exact (media_free_pre_render hmem hmedia).elim
      · intro hmem
        exact (media_free_post_frame hmem hmedia).elim
      · intro hmem
        refine ⟨rfl, ?_⟩
        revert hmem
        unfold handle_post_render
        dsimp only
        split
        · intro hmem; simp at hmem
        · next st hst =>
          split
          · split
            · intro hmem
              exact absurd (media_free_handle_event_error hmem hmedia) (List.not_mem_nil _)
            · intro hmem
              exfalso
              revert hmem
              split
              · intro hmem
                rcases List.mem_append.mp hmem with h2 | h2
                · rw [List.mem_singleton] at h2
                  subst h2
                  simp [Effect.isMedia] at hmedia
                · revert h2
                  split
                  · intro h2; simp at h2
                  · intro h2
                    rw [List.mem_singleton] at h2
                    subst h2
                    simp [Effect.isMedia] at hmedia
              · intro hmem; simp at hmem
          · split
            · next heq =>
              intro _
              exact ⟨q, st, hpath, hst, heq⟩
            · split
              · intro hmem
                exact absurd (media_free_handle_event_error hmem hmedia) (List.not_mem_nil _)
              · intro hmem
                exfalso
                revert hmem
                split
                · intro hmem
                  rcases List.mem_append.mp hmem with h2 | h2
                  · rw [List.mem_singleton] at h2
                    subst h2
                    simp [Effect.isMedia] at hmedia
                  · revert h2
                    split
                    · intro h2; simp at h2
                    · intro h2
                      rw [List.mem_singleton] at h2
                      subst h2
                      simp [Effect.isMedia] at hmedia
                · intro hmem
                  rw [List.mem_singleton] at hmem
                  subst hmem
                  simp [Effect.isMedia] at hmedia
      · intro hmem; simp at hmem


/-- Claim C8: preview media (photo or animation) is sent only on the
completion branch of `PostRender` (all expected frames completed); with
exactly one matching file a single photo is sent and no animation; with more
than 30 matching files the animation is built from a sampled subset that
includes the first ten and last ten files and is a subsequence of the sorted
list. -/
theorem preview_media_assembly :
    (∀ (w : World) (enabled : Bool) (renders : RMap) (session : SMap) (node : Node)
        (evt : RopRenderEventType) (ft now : ℚ) (eff : Effect),
      eff ∈ (on_render_event w enabled renders session node evt ft now).effects →
      eff.isMedia = true →
      evt = .PostRender ∧ ∃ p st, node.path = .ok p ∧ renders p = some st ∧
        (st.completed_frames.card : ℤ) = st.total_frames)
    ∧ (∀ (w : World) (node : Node) (pattern f : String),
        sortStr (w.glob pattern) = [f] →
        (∀ imgs nm2, Effect.sendAnimation imgs nm2 ∉ (send_telegram_animation w node pattern).1)
        ∧ (w.convOk f = true → ∀ nm2, get_node_name node = .ok nm2 →
            Effect.sendPhoto f nm2 ∈ (send_telegram_animation w node pattern).1))
    ∧ ∀ frames : List String, 30 < frames.length →
        (sampleFrames frames).Sublist frames
        ∧ (∀ i, i < 10 → frames.getD i "" ∈ sampleFrames frames)
        ∧ (∀ i, frames.length - 10 ≤ i → i < frames.length →
            frames.getD i "" ∈ sampleFrames frames)
        ∧ ∀ (w : World) (node : Node) (pattern : String) (imgs : List String) (nm2 : String),
            sortStr (w.glob pattern) = frames →
            Effect.sendAnimation imgs nm2 ∈ (send_telegram_animation w node pattern).1 →
            imgs.Sublist (sampleFrames frames) := by
  refine ⟨fun w enabled renders session node evt ft now eff hmem hmedia =>
    media_implies_completion hmem hmedia, ?_, ?_⟩
  · intro w node pattern f hsort
    unfold send_telegram_animation
    rw [hsort]
    dsimp only
    constructor
    · intro imgs nm2
      split
      · simp
      · split
        · simp
        · split <;> simp
    · intro hconv nm2 hnm
      rw [if_neg (by simp [hconv]), hnm]
      dsimp only
      split <;> simp
  · intro frames h30
    refine ⟨sampleFrames_sublist frames h30, ?_, ?_, ?_⟩
    · intro i hlt
      exact mem_sampleFrames_of_mem_indices
        (List.mem_append.mpr (Or.inl (List.mem_append.mpr (Or.inl (List.mem_range.mpr hlt)))))
    · intro i hge hlt
      exact mem_sampleFrames_of_mem_indices
        (List.mem_append.mpr (Or.inr (mem_pyRange_one.mpr ⟨hge, hlt⟩)))
    · intro w node pattern imgs nm2 hsort hmem
      rcases frames with _ | ⟨f0, frames1⟩
      · simp at h30
      rcases frames1 with _ | ⟨f1, rest⟩
      · simp at h30
      unfold send_telegram_animation at hmem
      rw [hsort] at hmem
      dsimp only at hmem
      rw [if_pos h30] at hmem
      revert hmem
      split
      · intro hmem; simp at hmem
      · split
        · intro hmem; simp at hmem
        · intro hmem
          cases hE : w.postOk <;> simp [hE] at hmem
          · obtain ⟨h1, h2⟩ := hmem
            subst h1
            exact List.filter_sublist _
          · obtain ⟨h1, h2⟩ := hmem
            subst h1
            exact List.filter_sublist _

/-- Witness for C8 at a single matching frame file. -/
theorem preview_media_assembly_witness :
    Effect.sendPhoto "a.png" "n1" ∈ (send_telegram_animation oneFrameWorld sampleNode "p").1 :=
  (preview_media_assembly.2.1 oneFrameWorld sampleNode "p" "a.png" (by rfl)).2
    (by rfl) "n1" (by rfl)


/-- Counterexample to C3 as stated: at a reachable zero-total render state
(`trange` on, `f1 = 2`, `f2 = 1` gives `total_frames = 0`), one `PostFrame`
for frame 1 records one completed frame, but delivering the same event a
second time (once the 2-second update interval has elapsed) reaches the
division `frames_done / total_frames`, raises `ZeroDivisionError`, and the
handler deletes the entry — so the duplicate changes the count from 1 to 0. -/
theorem post_frame_duplicate_changes_count_counterexample :
    completedCount
        (run_post_frames sampleWorld sampleNode mZero emptySMap [(1, 1), (1, 5)]).renders "n" = 0
    ∧ completedCount
        (run_post_frames sampleWorld sampleNode mZero emptySMap [(1, 1)]).renders "n" = 1 := by
  constructor <;>
    norm_num [run_post_frames, on_render_event, handle_post_frame, handle_event_error,
      mZero, stZero, sampleNode, sampleWorld, emptySMap, should_update_progress,
      get_node_name, get_render_engine, send_telegram_message, dictSet, dictDel,
      completedCount]

end TelegramNotifications
